import Mathlib

/-!
Verification development for the TOP2013 planetary-theory core
(header: src/generate/top2013/top2013.h).

The repository ships only the header file: the data structures
(top_term_t, top_series_t, top_formula_t, top_model_t, top_elliptical_t,
top_rectangular_t, TOP_MAX_SERIES, TOP_NCOORDS) and the eight public
function prototypes.  The function bodies are not part of the sources,
so every operation below is modelled from the specification document,
faithful to its words; each such definition carries a doc comment
starting with the phrase: Modelled from the spec.

Conventions of the embedding:
- C double values that are persisted as decimal text in the coefficient
  file (term fields k, c, s, p) are modelled as rationals, which
  represent decimal text exactly; the spec requires the format to
  preserve every numeric field exactly on round-trip.
- Values produced by series evaluation and coordinate transforms are
  modelled as real numbers.  Real numbers have no NaN or infinity, so
  every modelled value is finite.
- C int is modelled as the integers; status codes are a tagged type as
  listed in section 7 of the spec.
- The persisted file is modelled structurally: a sequence of planet
  blocks, each holding per orbital element a sequence of series, each a
  declared term count followed by the term tuples, exactly the shape the
  spec gives for the format (counts precede the data they bound).  An
  unreadable source is modelled as the absence of a file value.  The
  last-digit adjustment rule for rc and rs is left open by the spec
  (section 9), so file terms carry the adjusted coefficient values
  directly alongside the rc and rs fields.
- In-out pointer parameters become explicit state passing: an operation
  that mutates a model in C takes the model and returns the new model.
-/

namespace Top2013

/-- Modelled from the spec: the failure taxonomy of section 7, plus an
Ok outcome for success, standing for the C int status returns of the
public operations. -/
inductive TopStatus where
  | Ok
  | SourceUnreadable
  | MalformedRecord
  | PlanetNotFound
  | AllocationFailure
  | WriteFailure
  | InvalidModel
  | InvalidInput
  | NonConvergence
  deriving DecidableEq, Repr

/-- One periodic contributor, from top_term_t in top2013.h: amplitude k,
cosine coefficient c, sine coefficient s, period p in years, and the two
integer last-digit rounding adjustments rc and rs. -/
structure top_term_t where
  k : ℚ
  c : ℚ
  s : ℚ
  p : ℚ
  rc : ℤ
  rs : ℤ
  deriving DecidableEq, Repr

/-- One series, from top_series_t in top2013.h: the total number of
terms present, the number of terms actually summed, and the owned term
array (a list; a null pointer is the empty list). -/
structure top_series_t where
  nterms_total : ℤ
  nterms_calc : ℤ
  terms : List top_term_t
  deriving DecidableEq, Repr

/-- Capacity of the inline series array, from TOP_MAX_SERIES in
top2013.h. -/
def TOP_MAX_SERIES : ℤ := 13

/-- Number of orbital elements per model, from TOP_NCOORDS in
top2013.h. -/
def TOP_NCOORDS : ℕ := 6

/-- One formula, from top_formula_t in top2013.h: series counts and the
series themselves.  The C struct holds a fixed inline array of capacity
TOP_MAX_SERIES = 13; here the populated prefix is kept as a list and the
loader enforces the capacity bound before storing. -/
structure top_formula_t where
  nseries_total : ℤ
  nseries_calc : ℤ
  series : List top_series_t
  deriving DecidableEq, Repr

/-- One model, from top_model_t in top2013.h: the planet identifier
(5=Jupiter, 6=Saturn, 7=Uranus, 8=Neptune, 9=Pluto) and the six
formulas, in the fixed element order a, lambda, k, h, q, p. -/
structure top_model_t where
  planet : ℤ
  formula : List top_formula_t
  deriving DecidableEq, Repr

/-- Orbital elements, from top_elliptical_t in top2013.h. -/
structure top_elliptical_t where
  a : ℝ
  lambda : ℝ
  k : ℝ
  h : ℝ
  q : ℝ
  p : ℝ

/-- Rectangular state, from top_rectangular_t in top2013.h: position in
AU and velocity in AU per day. -/
structure top_rectangular_t where
  x : ℝ
  y : ℝ
  z : ℝ
  vx : ℝ
  vy : ℝ
  vz : ℝ

/-- The empty series: zero counts, no owned memory. -/
def topEmptySeries : top_series_t := ⟨0, 0, []⟩

/-- The empty formula: zero counts, no owned memory. -/
def topEmptyFormula : top_formula_t := ⟨0, 0, []⟩

/-- A default term, used only as the default value of list lookups. -/
def topEmptyTerm : top_term_t := ⟨0, 0, 0, 0, 0, 0⟩

/-- Modelled from the spec: the fully empty model produced by
Initialize, which resets planet to 0 and all six formulas to the empty
state (zero series, zero terms, no owned memory). -/
def topEmptyModel : top_model_t := ⟨0, List.replicate TOP_NCOORDS topEmptyFormula⟩

/-- Modelled from the spec: TopInitModel resets the model to the fully
empty state; always succeeds. -/
def TopInitModel (_m : top_model_t) : top_model_t := topEmptyModel

/-- Modelled from the spec: TopFreeModel frees every term array and
resets the model to the empty state; idempotent. -/
def TopFreeModel (_m : top_model_t) : top_model_t := topEmptyModel

/-- A series is populated when it holds at least one term and its stored
total matches the length of its term array. -/
def TopSeriesPopulated (s : top_series_t) : Prop :=
  1 ≤ s.nterms_total ∧ (s.terms.length : ℤ) = s.nterms_total

instance : DecidablePred TopSeriesPopulated := fun s => by
  unfold TopSeriesPopulated; infer_instance

/-- A formula is populated when it holds between 1 and TOP_MAX_SERIES
series, its stored total matches the length of its series list, and
every series in it is populated. -/
def TopFormulaPopulated (f : top_formula_t) : Prop :=
  1 ≤ f.nseries_total ∧ f.nseries_total ≤ TOP_MAX_SERIES ∧
    (f.series.length : ℤ) = f.nseries_total ∧ ∀ s ∈ f.series, TopSeriesPopulated s

instance : DecidablePred TopFormulaPopulated := fun f => by
  unfold TopFormulaPopulated; infer_instance

/-- A model is populated when its planet is one of 5..9 and all six
formulas are populated. -/
def TopModelPopulated (m : top_model_t) : Prop :=
  5 ≤ m.planet ∧ m.planet ≤ 9 ∧ m.formula.length = TOP_NCOORDS ∧
    ∀ f ∈ m.formula, TopFormulaPopulated f

instance : DecidablePred TopModelPopulated := fun m => by
  unfold TopModelPopulated; infer_instance

/-- The calc count of a series is in range: between 1 and the total. -/
def TopSeriesCountsValid (s : top_series_t) : Prop :=
  1 ≤ s.nterms_calc ∧ s.nterms_calc ≤ s.nterms_total

instance : DecidablePred TopSeriesCountsValid := fun s => by
  unfold TopSeriesCountsValid; infer_instance

/-- The calc counts of a formula are in range. -/
def TopFormulaCountsValid (f : top_formula_t) : Prop :=
  1 ≤ f.nseries_calc ∧ f.nseries_calc ≤ f.nseries_total ∧
    ∀ s ∈ f.series, TopSeriesCountsValid s

instance : DecidablePred TopFormulaCountsValid := fun f => by
  unfold TopFormulaCountsValid; infer_instance

/-- A model is fully populated (the spec phrase: fully initialized, all
six formulas populated with consistent counts) when it is populated and
every calc count is in its valid range. -/
def TopModelFull (m : top_model_t) : Prop :=
  TopModelPopulated m ∧ ∀ f ∈ m.formula, TopFormulaCountsValid f

instance : DecidablePred TopModelFull := fun m => by
  unfold TopModelFull; infer_instance

/-- The model invariant of the data-model section, as amended: a model
is either fully populated (with planet between 5 and 9 and all counts
consistent) or fully empty. -/
def TopModelInv (m : top_model_t) : Prop :=
  TopModelFull m ∨ m = topEmptyModel

/-- The model invariant exactly as the spec states it in section 3:
count invariants, planet among 5..9 unconditionally, and the model fully
initialized or fully empty. -/
def TopClaimedInv (m : top_model_t) : Prop :=
  (∀ f ∈ m.formula,
      1 ≤ f.nseries_calc ∧ f.nseries_calc ≤ f.nseries_total ∧
        f.nseries_total ≤ TOP_MAX_SERIES ∧
        ∀ s ∈ f.series, 1 ≤ s.nterms_calc ∧ s.nterms_calc ≤ s.nterms_total) ∧
    (5 ≤ m.planet ∧ m.planet ≤ 9) ∧
    (TopModelFull m ∨ m = topEmptyModel)

instance : DecidablePred TopClaimedInv := fun m => by
  unfold TopClaimedInv; infer_instance

/-- Modelled from the spec: one persisted series record: a declared term
count followed by that many term tuples. -/
structure top_file_series_t where
  nterms : ℤ
  terms : List top_term_t
  deriving DecidableEq, Repr

/-- Modelled from the spec: the persisted series records of one orbital
element. -/
structure top_file_formula_t where
  series : List top_file_series_t
  deriving DecidableEq, Repr

/-- Modelled from the spec: one planet block of the persisted file: the
planet key and the per-element record groups. -/
structure top_file_block_t where
  planet : ℤ
  formulas : List top_file_formula_t
  deriving DecidableEq, Repr

/-- Modelled from the spec: the persisted coefficient file, a
planet-keyed sequence of blocks. -/
abbrev top_file_t := List top_file_block_t

/-- Modelled from the spec: parse one series record.  A record whose
declared count does not bound its data, or which holds no terms, is
malformed.  The calc count defaults to the full total. -/
def topParseSeries (fs : top_file_series_t) : Except TopStatus top_series_t :=
  if 1 ≤ fs.nterms ∧ fs.nterms = (fs.terms.length : ℤ) then
    .ok ⟨fs.nterms, fs.nterms, fs.terms⟩
  else
    .error .MalformedRecord

/-- Modelled from the spec: parse the series records of one orbital
element in order, stopping at the first malformed record. -/
def topParseSeriesList : List top_file_series_t → Except TopStatus (List top_series_t)
  | [] => .ok []
  | fs :: rest =>
    match topParseSeries fs with
    | .error e => .error e
    | .ok s =>
      match topParseSeriesList rest with
      | .error e => .error e
      | .ok l => .ok (s :: l)

/-- Modelled from the spec: parse one orbital element.  The series count
must be between 1 and the inline capacity TOP_MAX_SERIES = 13; a source
declaring more series than the capacity is rejected rather than written
past the array.  The calc count defaults to the full total. -/
def topParseFormula (ff : top_file_formula_t) : Except TopStatus top_formula_t :=
  if 1 ≤ (ff.series.length : ℤ) ∧ (ff.series.length : ℤ) ≤ TOP_MAX_SERIES then
    match topParseSeriesList ff.series with
    | .error e => .error e
    | .ok l => .ok ⟨(l.length : ℤ), (l.length : ℤ), l⟩
  else
    .error .MalformedRecord

/-- Modelled from the spec: parse the orbital elements of one planet
block in order, stopping at the first malformed element. -/
def topParseFormulaList : List top_file_formula_t → Except TopStatus (List top_formula_t)
  | [] => .ok []
  | ff :: rest =>
    match topParseFormula ff with
    | .error e => .error e
    | .ok f =>
      match topParseFormulaList rest with
      | .error e => .error e
      | .ok l => .ok (f :: l)

/-- Modelled from the spec: parse one planet block into a model.  The
block must hold exactly TOP_NCOORDS = 6 orbital elements. -/
def topParseBlock (b : top_file_block_t) : Except TopStatus top_model_t :=
  if b.formulas.length = TOP_NCOORDS then
    match topParseFormulaList b.formulas with
    | .error e => .error e
    | .ok fl => .ok ⟨b.planet, fl⟩
  else
    .error .MalformedRecord

/-- Modelled from the spec: TopLoadModel.  An absent source is
unreadable; the theory covers planets 5..9 only, and the block matching
the requested planet is located by its key; the block is parsed with
calc counts defaulting to the full totals.  On any failure the model is
left in the fully empty state with all partial allocations released, so
the returned model is the empty model on every failure path. -/
def TopLoadModel (_m : top_model_t) (src : Option top_file_t) (planet : ℤ) :
    TopStatus × top_model_t :=
  match src with
  | none => (.SourceUnreadable, topEmptyModel)
  | some file =>
    if 5 ≤ planet ∧ planet ≤ 9 then
      match file.find? (fun b => b.planet == planet) with
      | none => (.PlanetNotFound, topEmptyModel)
      | some b =>
        match topParseBlock b with
        | .error e => (e, topEmptyModel)
        | .ok m2 => (.Ok, m2)
    else
      (.PlanetNotFound, topEmptyModel)

/-- Modelled from the spec: TopWriteModel serializes a model into one
planet block in the same record layout used by Load, including the rc
and rs adjustment fields: per orbital element, per series, the declared
term count followed by the term tuples. -/
def TopWriteModel (m : top_model_t) : top_file_block_t :=
  ⟨m.planet,
    m.formula.map (fun f =>
      ⟨f.series.map (fun s => ⟨s.nterms_total, s.terms⟩)⟩)⟩

/-- Modelled from the spec: TopSaveModel serializes a fully populated
model into a persisted file holding its one planet block; saving an
empty model fails. -/
def TopSaveModel (m : top_model_t) : Except TopStatus top_file_t :=
  if m = topEmptyModel then .error .InvalidModel
  else .ok [TopWriteModel m]

/-- Modelled from the spec: the defensive clamp of the number of series
summed: at least 1, at most the stored total, and at most the inline
capacity TOP_MAX_SERIES = 13. -/
def topClampSeriesCount (f : top_formula_t) : ℤ :=
  min (max f.nseries_calc 1) (min f.nseries_total TOP_MAX_SERIES)

/-- Modelled from the spec: the defensive clamp of the number of terms
summed: at least 1 and at most the stored total. -/
def topClampTermCount (s : top_series_t) : ℤ :=
  min (max s.nterms_calc 1) s.nterms_total

/-- Modelled from the spec: the value of one periodic term at time t
(Julian millennia from the reference epoch):
k times (c times cos of 2 pi t over p, plus s times sin of 2 pi t over p). -/
noncomputable def topTermValue (t : ℝ) (term : top_term_t) : ℝ :=
  (term.k : ℝ) *
    ((term.c : ℝ) * Real.cos (2 * Real.pi * t / (term.p : ℝ)) +
      (term.s : ℝ) * Real.sin (2 * Real.pi * t / (term.p : ℝ)))

/-- Modelled from the spec: the inner sum of one series at time t,
accumulated term-ascending over the clamped number of terms. -/
noncomputable def topSeriesValue (t : ℝ) (s : top_series_t) : ℝ :=
  (s.terms.take (topClampTermCount s).toNat).foldl
    (fun acc term => acc + topTermValue t term) 0

/-- Accumulator for one formula: walks the series list in ascending
order, the index giving the power of t, adding each series contribution
to the running total. -/
noncomputable def topFormulaAux (t : ℝ) : List top_series_t → ℕ → ℝ → ℝ
  | [], _, acc => acc
  | s :: rest, i, acc => topFormulaAux t rest (i + 1) (acc + t ^ i * topSeriesValue t s)

/-- Modelled from the spec: the value of one orbital element at time t,
accumulated series-ascending over the clamped number of series. -/
noncomputable def topFormulaValue (t : ℝ) (f : top_formula_t) : ℝ :=
  topFormulaAux t (f.series.take (topClampSeriesCount f).toNat) 0 0

/-- A formula value with the calc counts themselves replaced by their
clamped values, used to state that evaluation never trusts
caller-mutated counts. -/
def topClampFormula (f : top_formula_t) : top_formula_t :=
  ⟨f.nseries_total, topClampSeriesCount f,
    f.series.map (fun s => ⟨s.nterms_total, topClampTermCount s, s.terms⟩)⟩

/-- Modelled from the spec: TopCalcElliptical sums the six formulas of a
populated model at time t and packs the six values into the elliptical
elements in the fixed order a, lambda, k, h, q, p; an unpopulated model
is rejected with InvalidModel. -/
noncomputable def TopCalcElliptical (m : top_model_t) (t : ℝ) :
    Except TopStatus top_elliptical_t :=
  if TopModelPopulated m then
    .ok ⟨topFormulaValue t (m.formula.getD 0 topEmptyFormula),
         topFormulaValue t (m.formula.getD 1 topEmptyFormula),
         topFormulaValue t (m.formula.getD 2 topEmptyFormula),
         topFormulaValue t (m.formula.getD 3 topEmptyFormula),
         topFormulaValue t (m.formula.getD 4 topEmptyFormula),
         topFormulaValue t (m.formula.getD 5 topEmptyFormula)⟩
  else
    .error .InvalidModel

/-- The double sum that the spec gives for one orbital element: sum over
series index s below the calc count of t to the power s times the sum
over term index i below that series calc count of the term values, with
list entries read by index. -/
noncomputable def topSpecElementSum (t : ℝ) (f : top_formula_t) : ℝ :=
  ∑ s ∈ Finset.range f.nseries_calc.toNat,
    t ^ s *
      ∑ i ∈ Finset.range ((f.series.getD s topEmptySeries).nterms_calc.toNat),
        topTermValue t ((f.series.getD s topEmptySeries).terms.getD i topEmptyTerm)

/-- Modelled from the spec: the Newton-Raphson convergence tolerance, on
the order of 1e-12 radians. -/
noncomputable def topKeplerTol : ℝ := 1 / 10 ^ 12

/-- Modelled from the spec: the Newton-Raphson iteration cap, on the
order of 20 iterations. -/
def topKeplerMaxIter : ℕ := 20

/-- The residual of the generalized Kepler equation
F - k sin F + h cos F = lambda at the iterate F. -/
noncomputable def topKeplerResid (k h lambda F : ℝ) : ℝ :=
  F - k * Real.sin F + h * Real.cos F - lambda

/-- One Newton-Raphson update of the generalized Kepler equation. -/
noncomputable def topKeplerStep (k h lambda F : ℝ) : ℝ :=
  F - topKeplerResid k h lambda F / (1 - k * Real.cos F - h * Real.sin F)

/-- Modelled from the spec: the bounded Newton-Raphson loop.  At each
iterate the residual is tested against the tolerance; a remaining
iteration budget of zero with the residual still above tolerance fails
with NonConvergence. -/
noncomputable def topSolveKeplerAux (k h lambda : ℝ) : ℕ → ℝ → Except TopStatus ℝ
  | 0, F =>
    if |topKeplerResid k h lambda F| < topKeplerTol then .ok F
    else .error .NonConvergence
  | n + 1, F =>
    if |topKeplerResid k h lambda F| < topKeplerTol then .ok F
    else topSolveKeplerAux k h lambda n (topKeplerStep k h lambda F)

/-- Modelled from the spec: solve the generalized Kepler equation by
Newton-Raphson iteration starting from F0 = lambda, with at most
topKeplerMaxIter updates. -/
noncomputable def topSolveKepler (k h lambda : ℝ) : Except TopStatus ℝ :=
  topSolveKeplerAux k h lambda topKeplerMaxIter lambda

/-- Modelled from the spec: a fixed gravitational parameter for the mean
motion, in cubic AU per day squared (the square of the Gaussian
gravitational constant).  The spec fixes the transform to be identical
across planets, parameterized purely by the element values, so no
planet-specific mass enters. -/
noncomputable def topGM : ℝ := 0.01720209895 ^ 2

/-- Modelled from the spec: from the eccentric longitude F and the
elements, compute position and velocity in the orbital plane and rotate
into the ecliptic frame using the rotation implied by q and p (standard
equinoctial relations; the spec gives the construction only in prose). -/
noncomputable def topEclipticState (el : top_elliptical_t) (F : ℝ) : top_rectangular_t :=
  let cf := Real.cos F
  let sf := Real.sin F
  let dlf := -el.k * sf + el.h * cf
  let rsam1 := -el.k * cf - el.h * sf
  let asr := 1 / (1 + rsam1)
  let phi := Real.sqrt (1 - el.k ^ 2 - el.h ^ 2)
  let psi := 1 / (1 + phi)
  let cn := Real.sqrt (topGM / el.a ^ 3)
  let x1 := el.a * (cf - el.k - psi * el.h * dlf)
  let y1 := el.a * (sf - el.h + psi * el.k * dlf)
  let vx1 := cn * asr * el.a * (-sf - psi * el.h * rsam1)
  let vy1 := cn * asr * el.a * (cf + psi * el.k * rsam1)
  let dwho := 2 * Real.sqrt (1 - el.q ^ 2 - el.p ^ 2)
  let rtp := 1 - 2 * el.p ^ 2
  let rtq := 1 - 2 * el.q ^ 2
  let rdg := 2 * el.p * el.q
  ⟨x1 * rtp + y1 * rdg,
   x1 * rdg + y1 * rtq,
   (-x1 * el.p + y1 * el.q) * dwho,
   vx1 * rtp + vy1 * rdg,
   vx1 * rdg + vy1 * rtq,
   (-vx1 * el.p + vy1 * el.q) * dwho⟩

/-- Modelled from the spec: TopEcliptic.  The elements are rejected with
InvalidInput when the semi-major axis is not positive or the derived
eccentricity is not below 1 (every modelled value is finite); otherwise
the generalized Kepler equation is solved and the rectangular ecliptic
state computed.  The planet identifier is accepted for bookkeeping only
and does not branch the geometry. -/
noncomputable def TopEcliptic (_planet : ℤ) (el : top_elliptical_t) :
    Except TopStatus top_rectangular_t :=
  if 0 < el.a ∧ Real.sqrt (el.k ^ 2 + el.h ^ 2) < 1 then
    match topSolveKepler el.k el.h el.lambda with
    | .error e => .error e
    | .ok F => .ok (topEclipticState el F)
  else
    .error .InvalidInput

/-- Modelled from the spec: the mean obliquity of the ecliptic at the
reference epoch, approximately 23.4392911 degrees, in radians. -/
noncomputable def topObliquity : ℝ := 23.4392911 * Real.pi / 180

/-- Modelled from the spec: TopEquatorial applies the fixed rotation
about the x axis by the mean obliquity to both the position and the
velocity vector; every modelled value is finite, so it always
succeeds. -/
noncomputable def TopEquatorial (ecl : top_rectangular_t) :
    Except TopStatus top_rectangular_t :=
  .ok ⟨ecl.x,
       Real.cos topObliquity * ecl.y - Real.sin topObliquity * ecl.z,
       Real.sin topObliquity * ecl.y + Real.cos topObliquity * ecl.z,
       ecl.vx,
       Real.cos topObliquity * ecl.vy - Real.sin topObliquity * ecl.vz,
       Real.sin topObliquity * ecl.vy + Real.cos topObliquity * ecl.vz⟩

/-- Squared Euclidean norm of the position of a rectangular state. -/
noncomputable def topPosNormSq (r : top_rectangular_t) : ℝ :=
  r.x ^ 2 + r.y ^ 2 + r.z ^ 2

/-- Calc counts of a model agree with the totals everywhere, as they do
immediately after a successful load. -/
def TopModelCalcTotals (m : top_model_t) : Prop :=
  ∀ f ∈ m.formula,
    f.nseries_calc = f.nseries_total ∧ ∀ s ∈ f.series, s.nterms_calc = s.nterms_total

instance : DecidablePred TopModelCalcTotals := fun m => by
  unfold TopModelCalcTotals; infer_instance

/-- A concrete term used to build example models. -/
def topExTerm : top_term_t := ⟨1, 1, 1, 1, 0, 0⟩

/-- A concrete series whose calc count is narrowed below its total. -/
def topExSeriesNarrow : top_series_t := ⟨2, 1, [topExTerm, topExTerm]⟩

/-- A concrete formula holding the narrowed series. -/
def topExFormulaNarrow : top_formula_t := ⟨1, 1, [topExSeriesNarrow]⟩

/-- A concrete fully populated model for Jupiter whose term calc counts
are narrowed below the totals. -/
def topExModelNarrow : top_model_t := ⟨5, List.replicate 6 topExFormulaNarrow⟩

/-- A concrete series with calc count equal to its total. -/
def topExSeriesFull : top_series_t := ⟨2, 2, [topExTerm, topExTerm]⟩

/-- A concrete formula with calc counts equal to the totals. -/
def topExFormulaFull : top_formula_t := ⟨1, 1, [topExSeriesFull]⟩

/-- A concrete fully populated model for Jupiter with calc counts equal
to the totals. -/
def topExModelFull : top_model_t := ⟨5, List.replicate 6 topExFormulaFull⟩

/-- A concrete populated formula whose calc counts have been mutated out
of range by a caller. -/
def topExFormulaMut : top_formula_t := ⟨1, 99, [⟨2, -5, [topExTerm, topExTerm]⟩]⟩

/-- A concrete persisted block for planet 5 declaring 14 series for
every orbital element, one more than the inline capacity. -/
def topExBadBlock : top_file_block_t :=
  ⟨5, List.replicate 6 ⟨List.replicate 14 ⟨1, [topExTerm]⟩⟩⟩

theorem top_foldl_add_eq (t : ℝ) (l : List top_term_t) (a : ℝ) :
    l.foldl (fun acc term => acc + topTermValue t term) a =
      a + ∑ i ∈ Finset.range l.length, topTermValue t (l.getD i topEmptyTerm) := by
  induction l generalizing a with
  | nil => simp
  | cons x xs ih =>
    rw [List.foldl_cons, ih, List.length_cons, Finset.sum_range_succ']
    simp [List.getD_cons_succ, List.getD_cons_zero]
    ring

theorem top_getD_take {β : Type} (l : List β) (n i : ℕ) (d : β) (h : i < n) :
    (l.take n).getD i d = l.getD i d := by
  by_cases hi : i < l.length
  · rw [List.getD_eq_getElem _ d (show i < (l.take n).length by
        rw [List.length_take]; omega),
      List.getD_eq_getElem _ d hi]
    exact List.getElem_take _
  · rw [List.getD_eq_default _ d (show (l.take n).length ≤ i by
        rw [List.length_take]; omega),
      List.getD_eq_default _ d (by omega)]

theorem topSeriesValue_eq_spec (t : ℝ) (s : top_series_t)
    (hp : TopSeriesPopulated s) (hc : TopSeriesCountsValid s) :
    topSeriesValue t s =
      ∑ i ∈ Finset.range s.nterms_calc.toNat,
        topTermValue t (s.terms.getD i topEmptyTerm) := by
  obtain ⟨hp1, hp2⟩ := hp
  obtain ⟨hc1, hc2⟩ := hc
  have hcl : topClampTermCount s = s.nterms_calc := by
    unfold topClampTermCount; omega
  have hlen : (s.terms.take s.nterms_calc.toNat).length = s.nterms_calc.toNat := by
    rw [List.length_take]; omega
  unfold topSeriesValue
  rw [hcl, top_foldl_add_eq, hlen, zero_add]
  exact Finset.sum_congr rfl fun i hi => by
    rw [top_getD_take _ _ _ _ (Finset.mem_range.mp hi)]

theorem topFormulaAux_eq (t : ℝ) (l : List top_series_t) :
    ∀ (i : ℕ) (acc : ℝ), topFormulaAux t l i acc =
      acc + ∑ j ∈ Finset.range l.length,
        t ^ (i + j) * topSeriesValue t (l.getD j topEmptySeries) := by
  induction l with
  | nil => intro i acc; simp [topFormulaAux]
  | cons s rest ih =>
    intro i acc
    rw [show topFormulaAux t (s :: rest) i acc =
      topFormulaAux t rest (i + 1) (acc + t ^ i * topSeriesValue t s) from rfl]
    rw [ih, List.length_cons, Finset.sum_range_succ']
    simp only [List.getD_cons_succ, List.getD_cons_zero]
    have hsum : ∑ j ∈ Finset.range rest.length,
        t ^ (i + 1 + j) * topSeriesValue t (rest.getD j topEmptySeries) =
        ∑ j ∈ Finset.range rest.length,
          t ^ (i + (j + 1)) * topSeriesValue t (rest.getD j topEmptySeries) :=
      Finset.sum_congr rfl fun j _ => by rw [show i + 1 + j = i + (j + 1) by omega]
    rw [hsum]
    ring

theorem top_mem_getD {β : Type} (l : List β) (j : ℕ) (d : β) (hj : j < l.length) :
    l.getD j d ∈ l := by
  rw [List.getD_eq_getElem _ d hj]
  exact List.getElem_mem hj

theorem topFormulaValue_eq_spec (t : ℝ) (f : top_formula_t)
    (hp : TopFormulaPopulated f) (hc : TopFormulaCountsValid f) :
    topFormulaValue t f = topSpecElementSum t f := by
  obtain ⟨hp1, hp2, hp3, hp4⟩ := hp
  obtain ⟨hc1, hc2, hc3⟩ := hc
  have hcl : topClampSeriesCount f = f.nseries_calc := by
    unfold topClampSeriesCount TOP_MAX_SERIES
    unfold TOP_MAX_SERIES at hp2
    omega
  have hlen : (f.series.take f.nseries_calc.toNat).length = f.nseries_calc.toNat := by
    rw [List.length_take]; omega
  unfold topFormulaValue topSpecElementSum
  rw [hcl, topFormulaAux_eq, hlen, zero_add]
  refine Finset.sum_congr rfl fun j hj => ?_
  have hjlt : j < f.nseries_calc.toNat := Finset.mem_range.mp hj
  have hjlen : j < f.series.length := by omega
  rw [zero_add, top_getD_take _ _ _ _ hjlt]
  have hmem : f.series.getD j topEmptySeries ∈ f.series := top_mem_getD _ _ _ hjlen
  rw [topSeriesValue_eq_spec t _ (hp4 _ hmem) (hc3 _ hmem)]

theorem topClampTermCount_stable (s : top_series_t) (h : 1 ≤ s.nterms_total) :
    topClampTermCount ⟨s.nterms_total, topClampTermCount s, s.terms⟩ =
      topClampTermCount s := by
  unfold topClampTermCount
  dsimp only
  omega

theorem topSeriesValue_clamp (t : ℝ) (s : top_series_t) (h : 1 ≤ s.nterms_total) :
    topSeriesValue t ⟨s.nterms_total, topClampTermCount s, s.terms⟩ =
      topSeriesValue t s := by
  unfold topSeriesValue
  rw [topClampTermCount_stable s h]

theorem topClampSeriesCount_stable (f : top_formula_t) (h : 1 ≤ f.nseries_total) :
    topClampSeriesCount (topClampFormula f) = topClampSeriesCount f := by
  unfold topClampFormula topClampSeriesCount TOP_MAX_SERIES
  dsimp only
  omega

theorem topFormulaAux_congr (t : ℝ) (g : top_series_t → top_series_t) :
    ∀ (l : List top_series_t) (i : ℕ) (acc : ℝ),
      (∀ s ∈ l, topSeriesValue t (g s) = topSeriesValue t s) →
      topFormulaAux t (l.map g) i acc = topFormulaAux t l i acc := by
  intro l
  induction l with
  | nil => intro i acc _; rfl
  | cons s rest ih =>
    intro i acc hyp
    rw [show (s :: rest).map g = g s :: rest.map g from rfl]
    rw [show topFormulaAux t (g s :: rest.map g) i acc =
      topFormulaAux t (rest.map g) (i + 1) (acc + t ^ i * topSeriesValue t (g s)) from rfl]
    rw [show topFormulaAux t (s :: rest) i acc =
      topFormulaAux t rest (i + 1) (acc + t ^ i * topSeriesValue t s) from rfl]
    rw [hyp s (List.mem_cons_self s rest)]
    exact ih _ _ fun x hx => hyp x (List.mem_cons_of_mem _ hx)

theorem topFormulaValue_clamp (t : ℝ) (f : top_formula_t)
    (hp : TopFormulaPopulated f) :
    topFormulaValue t (topClampFormula f) = topFormulaValue t f := by
  obtain ⟨hp1, hp2, hp3, hp4⟩ := hp
  unfold topFormulaValue
  rw [topClampSeriesCount_stable f hp1]
  rw [show (topClampFormula f).series =
    f.series.map (fun s => ⟨s.nterms_total, topClampTermCount s, s.terms⟩) from rfl]
  rw [← List.map_take]
  exact topFormulaAux_congr t _ _ 0 0 fun s hs =>
    topSeriesValue_clamp t s (hp4 s (List.mem_of_mem_take hs)).1

theorem topParseSeries_ok (fs : top_file_series_t) (s : top_series_t)
    (h : topParseSeries fs = .ok s) :
    TopSeriesPopulated s ∧ TopSeriesCountsValid s ∧ s.nterms_calc = s.nterms_total := by
  unfold topParseSeries at h
  split at h
  · rename_i hcond
    obtain ⟨h1, h2⟩ := hcond
    cases h
    exact ⟨⟨h1, h2.symm⟩, ⟨h1, le_refl _⟩, rfl⟩
  · cases h

theorem topParseSeriesList_ok :
    ∀ (l : List top_file_series_t) (out : List top_series_t),
      topParseSeriesList l = .ok out →
      out.length = l.length ∧
        ∀ s ∈ out, TopSeriesPopulated s ∧ TopSeriesCountsValid s ∧
          s.nterms_calc = s.nterms_total := by
  intro l
  induction l with
  | nil =>
    intro out h
    cases h
    exact ⟨rfl, fun s hs => absurd hs (List.not_mem_nil s)⟩
  | cons fs rest ih =>
    intro out h
    rw [show topParseSeriesList (fs :: rest) =
      (match topParseSeries fs with
        | .error e => .error e
        | .ok s =>
          match topParseSeriesList rest with
          | .error e => .error e
          | .ok l2 => .ok (s :: l2)) from rfl] at h
    cases hfs : topParseSeries fs with
    | error e => rw [hfs] at h; cases h
    | ok s =>
      rw [hfs] at h
      cases hrest : topParseSeriesList rest with
      | error e => rw [hrest] at h; cases h
      | ok l2 =>
        rw [hrest] at h
        cases h
        obtain ⟨hlen, hall⟩ := ih l2 hrest
        refine ⟨by simp [hlen], fun x hx => ?_⟩
        rcases List.mem_cons.mp hx with hx1 | hx2
        · subst hx1; exact topParseSeries_ok fs x hfs
        · exact hall x hx2

theorem topParseFormula_ok (ff : top_file_formula_t) (f : top_formula_t)
    (h : topParseFormula ff = .ok f) :
    TopFormulaPopulated f ∧ TopFormulaCountsValid f ∧
      f.nseries_calc = f.nseries_total ∧
      (∀ s ∈ f.series, s.nterms_calc = s.nterms_total) ∧
      (ff.series.length : ℤ) ≤ TOP_MAX_SERIES := by
  unfold topParseFormula at h
  split at h
  · rename_i hcond
    obtain ⟨h1, h2⟩ := hcond
    cases hpl : topParseSeriesList ff.series with
    | error e => rw [hpl] at h; cases h
    | ok l =>
      rw [hpl] at h
      cases h
      obtain ⟨hlen, hall⟩ := topParseSeriesList_ok ff.series l hpl
      unfold TopFormulaPopulated TopFormulaCountsValid
      dsimp only
      unfold TOP_MAX_SERIES at h2 ⊢
      refine ⟨⟨by omega, by omega, rfl, fun s hs => (hall s hs).1⟩,
        ⟨by omega, le_refl _, fun s hs => (hall s hs).2.1⟩, rfl,
        fun s hs => (hall s hs).2.2, h2⟩
  · cases h

theorem topParseFormulaList_ok :
    ∀ (l : List top_file_formula_t) (out : List top_formula_t),
      topParseFormulaList l = .ok out →
      out.length = l.length ∧
        (∀ f ∈ out, TopFormulaPopulated f ∧ TopFormulaCountsValid f ∧
          f.nseries_calc = f.nseries_total ∧
          ∀ s ∈ f.series, s.nterms_calc = s.nterms_total) ∧
        ∀ ff ∈ l, (ff.series.length : ℤ) ≤ TOP_MAX_SERIES := by
  intro l
  induction l with
  | nil =>
    intro out h
    cases h
    exact ⟨rfl, fun f hf => absurd hf (List.not_mem_nil f),
      fun ff hff => absurd hff (List.not_mem_nil ff)⟩
  | cons ff rest ih =>
    intro out h
    rw [show topParseFormulaList (ff :: rest) =
      (match topParseFormula ff with
        | .error e => .error e
        | .ok f =>
          match topParseFormulaList rest with
          | .error e => .error e
          | .ok l2 => .ok (f :: l2)) from rfl] at h
    cases hff : topParseFormula ff with
    | error e => rw [hff] at h; cases h
    | ok f =>
      rw [hff] at h
      cases hrest : topParseFormulaList rest with
      | error e => rw [hrest] at h; cases h
      | ok l2 =>
        rw [hrest] at h
        cases h
        obtain ⟨hlen, hall, hbound⟩ := ih l2 hrest
        obtain ⟨hf1, hf2, hf3, hf4, hf5⟩ := topParseFormula_ok ff f hff
        refine ⟨by simp [hlen], fun x hx => ?_, fun x hx => ?_⟩
        · rcases List.mem_cons.mp hx with hx1 | hx2
          · subst hx1; exact ⟨hf1, hf2, hf3, hf4⟩
          · exact hall x hx2
        · rcases List.mem_cons.mp hx with hx1 | hx2
          · subst hx1; exact hf5
          · exact hbound x hx2

theorem topParseBlock_ok (b : top_file_block_t) (m : top_model_t)
    (h : topParseBlock b = .ok m) :
    m.planet = b.planet ∧ m.formula.length = TOP_NCOORDS ∧
      (∀ f ∈ m.formula, TopFormulaPopulated f ∧ TopFormulaCountsValid f ∧
        f.nseries_calc = f.nseries_total ∧
        ∀ s ∈ f.series, s.nterms_calc = s.nterms_total) ∧
      ∀ ff ∈ b.formulas, (ff.series.length : ℤ) ≤ TOP_MAX_SERIES := by
  unfold topParseBlock at h
  split at h
  · rename_i hcond
    cases hfl : topParseFormulaList b.formulas with
    | error e => rw [hfl] at h; cases h
    | ok fl =>
      rw [hfl] at h
      cases h
      obtain ⟨hlen, hall, hbound⟩ := topParseFormulaList_ok b.formulas fl hfl
      exact ⟨rfl, by rw [show (top_model_t.mk b.planet fl).formula = fl from rfl]; omega,
        hall, hbound⟩
  · cases h

theorem topParseSeries_error (fs : top_file_series_t) (e : TopStatus)
    (h : topParseSeries fs = .error e) : e = .MalformedRecord := by
  unfold topParseSeries at h
  split at h
  · cases h
  · cases h; rfl

theorem topParseSeriesList_error :
    ∀ (l : List top_file_series_t) (e : TopStatus),
      topParseSeriesList l = .error e → e = .MalformedRecord := by
  intro l
  induction l with
  | nil => intro e h; cases h
  | cons fs rest ih =>
    intro e h
    rw [show topParseSeriesList (fs :: rest) =
      (match topParseSeries fs with
        | .error e2 => .error e2
        | .ok s =>
          match topParseSeriesList rest with
          | .error e2 => .error e2
          | .ok l2 => .ok (s :: l2)) from rfl] at h
    cases hfs : topParseSeries fs with
    | error e2 => rw [hfs] at h; cases h; exact topParseSeries_error fs e hfs
    | ok s =>
      rw [hfs] at h
      cases hrest : topParseSeriesList rest with
      | error e2 => rw [hrest] at h; cases h; exact ih e hrest
      | ok l2 => rw [hrest] at h; cases h

theorem topParseFormula_error (ff : top_file_formula_t) (e : TopStatus)
    (h : topParseFormula ff = .error e) : e = .MalformedRecord := by
  unfold topParseFormula at h
  split at h
  · cases hpl : topParseSeriesList ff.series with
    | error e2 => rw [hpl] at h; cases h; exact topParseSeriesList_error ff.series e hpl
    | ok l => rw [hpl] at h; cases h
  · cases h; rfl

theorem topParseFormulaList_error :
    ∀ (l : List top_file_formula_t) (e : TopStatus),
      topParseFormulaList l = .error e → e = .MalformedRecord := by
  intro l
  induction l with
  | nil => intro e h; cases h
  | cons ff rest ih =>
    intro e h
    rw [show topParseFormulaList (ff :: rest) =
      (match topParseFormula ff with
        | .error e2 => .error e2
        | .ok f =>
          match topParseFormulaList rest with
          | .error e2 => .error e2
          | .ok l2 => .ok (f :: l2)) from rfl] at h
    cases hff : topParseFormula ff with
    | error e2 => rw [hff] at h; cases h; exact topParseFormula_error ff e hff
    | ok f =>
      rw [hff] at h
      cases hrest : topParseFormulaList rest with
      | error e2 => rw [hrest] at h; cases h; exact ih e hrest
      | ok l2 => rw [hrest] at h; cases h

theorem topParseBlock_error (b : top_file_block_t) (e : TopStatus)
    (h : topParseBlock b = .error e) : e = .MalformedRecord := by
  unfold topParseBlock at h
  split at h
  · cases hfl : topParseFormulaList b.formulas with
    | error e2 => rw [hfl] at h; cases h; exact topParseFormulaList_error b.formulas e hfl
    | ok fl => rw [hfl] at h; cases h
  · cases h; rfl

theorem topLoad_fail_empty (m : top_model_t) (src : Option top_file_t) (planet : ℤ)
    (h : (TopLoadModel m src planet).1 ≠ .Ok) :
    (TopLoadModel m src planet).2 = topEmptyModel := by
  cases src with
  | none => rfl
  | some file =>
    by_cases hr : 5 ≤ planet ∧ planet ≤ 9
    · cases hf : file.find? (fun b => b.planet == planet) with
      | none =>
        have heq : TopLoadModel m (some file) planet = (.PlanetNotFound, topEmptyModel) := by
          unfold TopLoadModel; dsimp only; rw [if_pos hr, hf]
        rw [heq]
      | some b =>
        cases hp : topParseBlock b with
        | error e =>
          have heq : TopLoadModel m (some file) planet = (e, topEmptyModel) := by
            unfold TopLoadModel; dsimp only; rw [if_pos hr, hf]; dsimp only; rw [hp]
          rw [heq]
        | ok m2 =>
          have heq : TopLoadModel m (some file) planet = (.Ok, m2) := by
            unfold TopLoadModel; dsimp only; rw [if_pos hr, hf]; dsimp only; rw [hp]
          rw [heq] at h
          exact absurd rfl h
    · have heq : TopLoadModel m (some file) planet = (.PlanetNotFound, topEmptyModel) := by
        unfold TopLoadModel; dsimp only; rw [if_neg hr]
      rw [heq]

theorem topLoad_ok_full (m : top_model_t) (src : Option top_file_t) (planet : ℤ)
    (h : (TopLoadModel m src planet).1 = .Ok) :
    TopModelFull (TopLoadModel m src planet).2 ∧
      TopModelCalcTotals (TopLoadModel m src planet).2 ∧
      (TopLoadModel m src planet).2.planet = planet := by
  cases src with
  | none => simp [TopLoadModel] at h
  | some file =>
    by_cases hr : 5 ≤ planet ∧ planet ≤ 9
    · cases hf : file.find? (fun b => b.planet == planet) with
      | none =>
        have heq : TopLoadModel m (some file) planet = (.PlanetNotFound, topEmptyModel) := by
          unfold TopLoadModel; dsimp only; rw [if_pos hr, hf]
        rw [heq] at h
        cases h
      | some b =>
        cases hp : topParseBlock b with
        | error e =>
          have heq : TopLoadModel m (some file) planet = (e, topEmptyModel) := by
            unfold TopLoadModel; dsimp only; rw [if_pos hr, hf]; dsimp only; rw [hp]
          rw [heq] at h
          rw [topParseBlock_error b e hp] at h
          cases h
        | ok m2 =>
          have heq : TopLoadModel m (some file) planet = (.Ok, m2) := by
            unfold TopLoadModel; dsimp only; rw [if_pos hr, hf]; dsimp only; rw [hp]
          rw [heq]
          obtain ⟨hpl, hlen, hall, _⟩ := topParseBlock_ok b m2 hp
          have hbp : b.planet = planet := by
            have := List.find?_some hf
            exact beq_iff_eq.mp this
          refine ⟨⟨⟨?_, ?_, hlen, fun f hf2 => (hall f hf2).1⟩,
            fun f hf2 => (hall f hf2).2.1⟩,
            fun f hf2 => ⟨(hall f hf2).2.2.1, (hall f hf2).2.2.2⟩, ?_⟩
          · rw [hpl, hbp]; exact hr.1
          · rw [hpl, hbp]; exact hr.2
          · rw [hpl, hbp]
    · have heq : TopLoadModel m (some file) planet = (.PlanetNotFound, topEmptyModel) := by
        unfold TopLoadModel; dsimp only; rw [if_neg hr]
      rw [heq] at h
      cases h

theorem topParseSeries_roundtrip (s : top_series_t) (hp : TopSeriesPopulated s)
    (hc : s.nterms_calc = s.nterms_total) :
    topParseSeries ⟨s.nterms_total, s.terms⟩ = .ok s := by
  obtain ⟨h1, h2⟩ := hp
  unfold topParseSeries
  rw [if_pos ⟨h1, h2.symm⟩]
  cases s with
  | mk a b c =>
    dsimp only at hc ⊢
    rw [hc]

theorem topParseSeriesList_roundtrip :
    ∀ (l : List top_series_t),
      (∀ s ∈ l, TopSeriesPopulated s ∧ s.nterms_calc = s.nterms_total) →
      topParseSeriesList (l.map (fun s => ⟨s.nterms_total, s.terms⟩)) = .ok l := by
  intro l
  induction l with
  | nil => intro _; rfl
  | cons s rest ih =>
    intro hyp
    rw [show (s :: rest).map (fun s => top_file_series_t.mk s.nterms_total s.terms) =
      ⟨s.nterms_total, s.terms⟩ :: rest.map (fun s => ⟨s.nterms_total, s.terms⟩) from rfl]
    rw [show topParseSeriesList
        (top_file_series_t.mk s.nterms_total s.terms ::
          rest.map (fun s => top_file_series_t.mk s.nterms_total s.terms)) =
      (match topParseSeries ⟨s.nterms_total, s.terms⟩ with
        | .error e => .error e
        | .ok s2 =>
          match topParseSeriesList (rest.map (fun s => ⟨s.nterms_total, s.terms⟩)) with
          | .error e => .error e
          | .ok l2 => .ok (s2 :: l2)) from rfl]
    rw [topParseSeries_roundtrip s (hyp s (List.mem_cons_self s rest)).1
      (hyp s (List.mem_cons_self s rest)).2]
    rw [ih fun x hx => hyp x (List.mem_cons_of_mem _ hx)]

theorem topParseFormula_roundtrip (f : top_formula_t)
    (hp : TopFormulaPopulated f) (hc : f.nseries_calc = f.nseries_total)
    (hterms : ∀ s ∈ f.series, s.nterms_calc = s.nterms_total) :
    topParseFormula ⟨f.series.map (fun s => ⟨s.nterms_total, s.terms⟩)⟩ = .ok f := by
  obtain ⟨h1, h2, h3, h4⟩ := hp
  unfold topParseFormula
  rw [if_pos (by dsimp only; rw [List.length_map]; exact ⟨by omega, by omega⟩)]
  rw [show (top_file_formula_t.mk
      (f.series.map (fun s => top_file_series_t.mk s.nterms_total s.terms))).series =
    f.series.map (fun s => top_file_series_t.mk s.nterms_total s.terms) from rfl]
  rw [topParseSeriesList_roundtrip f.series fun s hs => ⟨h4 s hs, hterms s hs⟩]
  cases f with
  | mk a b c =>
    dsimp only at h3 hc ⊢
    rw [h3, hc]

theorem topParseFormulaList_roundtrip :
    ∀ (l : List top_formula_t),
      (∀ f ∈ l, TopFormulaPopulated f ∧ f.nseries_calc = f.nseries_total ∧
        ∀ s ∈ f.series, s.nterms_calc = s.nterms_total) →
      topParseFormulaList
        (l.map (fun f => ⟨f.series.map (fun s => ⟨s.nterms_total, s.terms⟩)⟩)) = .ok l := by
  intro l
  induction l with
  | nil => intro _; rfl
  | cons f rest ih =>
    intro hyp
    rw [show (f :: rest).map
        (fun f => top_file_formula_t.mk (f.series.map (fun s => ⟨s.nterms_total, s.terms⟩))) =
      ⟨f.series.map (fun s => ⟨s.nterms_total, s.terms⟩)⟩ ::
        rest.map (fun f => ⟨f.series.map (fun s => ⟨s.nterms_total, s.terms⟩)⟩) from rfl]
    rw [show topParseFormulaList
        (top_file_formula_t.mk (f.series.map (fun s => top_file_series_t.mk s.nterms_total s.terms)) ::
          rest.map (fun f =>
            top_file_formula_t.mk (f.series.map (fun s => top_file_series_t.mk s.nterms_total s.terms)))) =
      (match topParseFormula ⟨f.series.map (fun s => ⟨s.nterms_total, s.terms⟩)⟩ with
        | .error e => .error e
        | .ok f2 =>
          match topParseFormulaList
              (rest.map (fun f =>
                top_file_formula_t.mk (f.series.map (fun s => top_file_series_t.mk s.nterms_total s.terms)))) with
          | .error e => .error e
          | .ok l2 => .ok (f2 :: l2)) from rfl]
    rw [topParseFormula_roundtrip f (hyp f (List.mem_cons_self f rest)).1
      (hyp f (List.mem_cons_self f rest)).2.1 (hyp f (List.mem_cons_self f rest)).2.2]
    rw [ih fun x hx => hyp x (List.mem_cons_of_mem _ hx)]

theorem topParseBlock_roundtrip (m : top_model_t)
    (hfull : TopModelFull m) (hct : TopModelCalcTotals m) :
    topParseBlock (TopWriteModel m) = .ok m := by
  obtain ⟨⟨hp1, hp2, hp3, hp4⟩, hcv⟩ := hfull
  unfold topParseBlock TopWriteModel
  rw [if_pos (by dsimp only; rw [List.length_map]; exact hp3)]
  dsimp only
  rw [topParseFormulaList_roundtrip m.formula fun f hf =>
    ⟨hp4 f hf, (hct f hf).1, (hct f hf).2⟩]

theorem topModel_full_ne_empty (m : top_model_t) (hfull : TopModelFull m) :
    m ≠ topEmptyModel := by
  intro h
  have h5 : 5 ≤ m.planet := hfull.1.1
  rw [h] at h5
  exact absurd h5 (by decide)

theorem topSave_eq (m : top_model_t) (hfull : TopModelFull m) :
    TopSaveModel m = .ok [TopWriteModel m] := by
  unfold TopSaveModel
  rw [if_neg (topModel_full_ne_empty m hfull)]

theorem topLoad_roundtrip (m m0 : top_model_t)
    (hfull : TopModelFull m) (hct : TopModelCalcTotals m) :
    TopLoadModel m0 (some [TopWriteModel m]) m.planet = (.Ok, m) := by
  have hr : 5 ≤ m.planet ∧ m.planet ≤ 9 := ⟨hfull.1.1, hfull.1.2.1⟩
  have hfind : List.find? (fun b => b.planet == m.planet) [TopWriteModel m] =
      some (TopWriteModel m) := by
    rw [List.find?_cons_of_pos]
    rw [show (TopWriteModel m).planet = m.planet from rfl]
    exact beq_self_eq_true m.planet
  unfold TopLoadModel
  dsimp only
  rw [if_pos hr, hfind]
  dsimp only
  rw [topParseBlock_roundtrip m hfull hct]

theorem topSolveKeplerAux_cases (k h lam : ℝ) :
    ∀ (n : ℕ) (F : ℝ),
      (∃ G, topSolveKeplerAux k h lam n F = .ok G ∧
        |topKeplerResid k h lam G| < topKeplerTol) ∨
      topSolveKeplerAux k h lam n F = .error .NonConvergence := by
  intro n
  induction n with
  | zero =>
    intro F
    by_cases hres : |topKeplerResid k h lam F| < topKeplerTol
    · exact Or.inl ⟨F, by rw [show topSolveKeplerAux k h lam 0 F =
        (if |topKeplerResid k h lam F| < topKeplerTol then .ok F
          else .error .NonConvergence) from rfl, if_pos hres], hres⟩
    · exact Or.inr (by rw [show topSolveKeplerAux k h lam 0 F =
        (if |topKeplerResid k h lam F| < topKeplerTol then .ok F
          else .error .NonConvergence) from rfl, if_neg hres])
  | succ n ih =>
    intro F
    rw [show topSolveKeplerAux k h lam (n + 1) F =
      (if |topKeplerResid k h lam F| < topKeplerTol then .ok F
        else topSolveKeplerAux k h lam n (topKeplerStep k h lam F)) from rfl]
    by_cases hres : |topKeplerResid k h lam F| < topKeplerTol
    · exact Or.inl ⟨F, by rw [if_pos hres], hres⟩
    · rw [if_neg hres]
      exact ih (topKeplerStep k h lam F)

theorem topSolveKepler_cases (k h lam : ℝ) :
    (∃ G, topSolveKepler k h lam = .ok G ∧
      |topKeplerResid k h lam G| < topKeplerTol) ∨
    topSolveKepler k h lam = .error .NonConvergence :=
  topSolveKeplerAux_cases k h lam topKeplerMaxIter lam

/-- Claim C1, counterexample to the claim as stated: a fully populated
model whose term calc count is narrowed below its total round-trips
through TopSaveModel and TopLoadModel to a model that differs from the
original in the calc counts, because the persisted layout stores one
count per series and the loader defaults calc counts to the totals. -/
theorem top2013_c1_counterexample :
    TopModelFull topExModelNarrow ∧
      TopSaveModel topExModelNarrow = .ok [TopWriteModel topExModelNarrow] ∧
      (TopLoadModel topEmptyModel (some [TopWriteModel topExModelNarrow])
        topExModelNarrow.planet).1 = TopStatus.Ok ∧
      (TopLoadModel topEmptyModel (some [TopWriteModel topExModelNarrow])
        topExModelNarrow.planet).2 ≠ topExModelNarrow := by
  refine ⟨by decide, rfl, by decide, by decide⟩

/-- Claim C1, amended: for any fully populated model whose calc counts
equal its totals (as holds for every model produced by a load), saving
with TopSaveModel (whose file is the single block written by
TopWriteModel) and loading the result with TopLoadModel for the same
planet succeeds and yields a model equal to the original in every
numeric field. -/
theorem top2013_c1_roundtrip :
    ∀ (m m0 : top_model_t), TopModelFull m → TopModelCalcTotals m →
      TopSaveModel m = .ok [TopWriteModel m] ∧
      TopLoadModel m0 (some [TopWriteModel m]) m.planet = (.Ok, m) :=
  fun m m0 hfull hct => ⟨topSave_eq m hfull, topLoad_roundtrip m m0 hfull hct⟩

/-- Witness for C1: the round-trip theorem applied to a concrete fully
populated model with calc counts equal to totals. -/
theorem top2013_c1_roundtrip_witness :
    (TopModelFull topExModelFull ∧ TopModelCalcTotals topExModelFull) ∧
      (TopSaveModel topExModelFull = .ok [TopWriteModel topExModelFull] ∧
        TopLoadModel topEmptyModel (some [TopWriteModel topExModelFull])
          topExModelFull.planet = (.Ok, topExModelFull)) :=
  ⟨⟨by decide, by decide⟩,
    top2013_c1_roundtrip topExModelFull topEmptyModel (by decide) (by decide)⟩

/-- Claim C2: on a fully populated model, TopCalcElliptical returns, for
each of the six orbital elements independently, the double sum over
series index s below the series calc count and term index i below the
term calc count of t to the power s times the term value, packed into
the elliptical elements in the fixed order a, lambda, k, h, q, p. -/
theorem top2013_c2_series_sum :
    ∀ (m : top_model_t) (t : ℝ), TopModelFull m →
      TopCalcElliptical m t = .ok
        ⟨topSpecElementSum t (m.formula.getD 0 topEmptyFormula),
         topSpecElementSum t (m.formula.getD 1 topEmptyFormula),
         topSpecElementSum t (m.formula.getD 2 topEmptyFormula),
         topSpecElementSum t (m.formula.getD 3 topEmptyFormula),
         topSpecElementSum t (m.formula.getD 4 topEmptyFormula),
         topSpecElementSum t (m.formula.getD 5 topEmptyFormula)⟩ := by
  intro m t hfull
  have hpop := hfull.1
  have hcv := hfull.2
  have hlen : m.formula.length = 6 := by
    have := hpop.2.2.1; unfold TOP_NCOORDS at this; exact this
  have key : ∀ j : ℕ, j < 6 →
      topFormulaValue t (m.formula.getD j topEmptyFormula) =
        topSpecElementSum t (m.formula.getD j topEmptyFormula) := by
    intro j hj
    have hmem := top_mem_getD m.formula j topEmptyFormula (by omega)
    exact topFormulaValue_eq_spec t _ (hpop.2.2.2 _ hmem) (hcv _ hmem)
  unfold TopCalcElliptical
  rw [if_pos hpop, key 0 (by omega), key 1 (by omega), key 2 (by omega),
    key 3 (by omega), key 4 (by omega), key 5 (by omega)]

/-- Witness for C2: the series-sum theorem applied to a concrete fully
populated model at time 1. -/
theorem top2013_c2_series_sum_witness :
    TopModelFull topExModelFull ∧
      TopCalcElliptical topExModelFull 1 = .ok
        ⟨topSpecElementSum 1 (topExModelFull.formula.getD 0 topEmptyFormula),
         topSpecElementSum 1 (topExModelFull.formula.getD 1 topEmptyFormula),
         topSpecElementSum 1 (topExModelFull.formula.getD 2 topEmptyFormula),
         topSpecElementSum 1 (topExModelFull.formula.getD 3 topEmptyFormula),
         topSpecElementSum 1 (topExModelFull.formula.getD 4 topEmptyFormula),
         topSpecElementSum 1 (topExModelFull.formula.getD 5 topEmptyFormula)⟩ :=
  ⟨by decide, top2013_c2_series_sum topExModelFull 1 (by decide)⟩

/-- Claim C3: whenever TopLoadModel returns a failure status, the
returned model is the fully empty model; no partially populated model is
observable after a failed load. -/
theorem top2013_c3_fail_empty :
    ∀ (m : top_model_t) (src : Option top_file_t) (planet : ℤ),
      (TopLoadModel m src planet).1 ≠ TopStatus.Ok →
      (TopLoadModel m src planet).2 = topEmptyModel :=
  fun m src planet h => topLoad_fail_empty m src planet h

/-- Witness for C3: a load from an unreadable source fails and leaves
the empty model. -/
theorem top2013_c3_fail_empty_witness :
    (TopLoadModel topEmptyModel none 5).1 ≠ TopStatus.Ok ∧
      (TopLoadModel topEmptyModel none 5).2 = topEmptyModel :=
  ⟨by decide, top2013_c3_fail_empty topEmptyModel none 5 (by decide)⟩

/-- Claim C4: TopEcliptic fails with InvalidInput exactly when the
semi-major axis is not positive or the derived eccentricity, the square
root of k squared plus h squared, is at least 1; every modelled value is
finite, so the NaN and infinity clause of the claim is vacuous here. -/
theorem top2013_c4_invalid_input :
    ∀ (planet : ℤ) (el : top_elliptical_t),
      TopEcliptic planet el = .error .InvalidInput ↔
        (el.a ≤ 0 ∨ 1 ≤ Real.sqrt (el.k ^ 2 + el.h ^ 2)) := by
  intro planet el
  unfold TopEcliptic
  by_cases hv : 0 < el.a ∧ Real.sqrt (el.k ^ 2 + el.h ^ 2) < 1
  · rw [if_pos hv]
    rcases topSolveKepler_cases el.k el.h el.lambda with ⟨G, hok, _⟩ | herr
    · rw [hok]
      constructor
      · intro hcon; cases hcon
      · intro hd
        exfalso
        rcases hd with h1 | h2
        · linarith [hv.1]
        · linarith [hv.2]
    · rw [herr]
      constructor
      · intro hcon
        exact absurd (Except.error.inj hcon) (by decide)
      · intro hd
        exfalso
        rcases hd with h1 | h2
        · linarith [hv.1]
        · linarith [hv.2]
  · rw [if_neg hv]
    constructor
    · intro _
      by_cases ha : 0 < el.a
      · right
        by_contra hs
        push_neg at hs
        exact hv ⟨ha, hs⟩
      · left; linarith
    · intro _; rfl

/-- Claim C5: the Kepler solve starts from the mean longitude, uses a
cap of 20 Newton updates with tolerance 1e-12, always terminates with
either a converged eccentric longitude whose residual is below
tolerance or the NonConvergence status, and TopEcliptic returns
NonConvergence exactly when its input passes validation and the solver
fails to converge. -/
theorem top2013_c5_kepler_bounded :
    topKeplerMaxIter = 20 ∧
      topKeplerTol = 1 / 10 ^ 12 ∧
      (∀ k h lam : ℝ, topSolveKepler k h lam =
        topSolveKeplerAux k h lam topKeplerMaxIter lam) ∧
      (∀ k h lam : ℝ,
        (∃ F, topSolveKepler k h lam = .ok F ∧
          |topKeplerResid k h lam F| < topKeplerTol) ∨
        topSolveKepler k h lam = .error .NonConvergence) ∧
      (∀ (planet : ℤ) (el : top_elliptical_t),
        TopEcliptic planet el = .error .NonConvergence ↔
          (0 < el.a ∧ Real.sqrt (el.k ^ 2 + el.h ^ 2) < 1 ∧
            topSolveKepler el.k el.h el.lambda = .error .NonConvergence)) := by
  refine ⟨rfl, rfl, fun k h lam => rfl,
    fun k h lam => topSolveKepler_cases k h lam, ?_⟩
  intro planet el
  unfold TopEcliptic
  by_cases hv : 0 < el.a ∧ Real.sqrt (el.k ^ 2 + el.h ^ 2) < 1
  · rw [if_pos hv]
    rcases topSolveKepler_cases el.k el.h el.lambda with ⟨G, hok, _⟩ | herr
    · rw [hok]
      constructor
      · intro hcon; cases hcon
      · rintro ⟨_, _, hs⟩
        cases hs
    · rw [herr]
      exact ⟨fun _ => ⟨hv.1, hv.2, rfl⟩, fun _ => rfl⟩
  · rw [if_neg hv]
    constructor
    · intro hcon
      exact absurd (Except.error.inj hcon) (by decide)
    · rintro ⟨h1, h2, _⟩
      exact absurd ⟨h1, h2⟩ hv

/-- Claim C6, counterexample to the claim as stated: the invariant of
the spec demands planet among 5..9 unconditionally, yet Initialize
resets the planet to 0, so initializing a model that satisfies the
stated invariant yields one that violates it. -/
theorem top2013_c6_counterexample :
    TopClaimedInv topExModelFull ∧ ¬ TopClaimedInv (TopInitModel topExModelFull) := by
  refine ⟨by decide, by decide⟩

/-- Claim C6, amended: every model-producing operation (Initialize,
Free, Load) leaves the model either fully populated, with planet among
5..9 and all counts consistent, or fully empty with planet 0; the
remaining operations take the model immutably.  The planet clause of
the stated invariant holds only in the fully populated arm, since the
empty state carries planet 0. -/
theorem top2013_c6_invariant_preserved :
    ∀ (m : top_model_t) (src : Option top_file_t) (planet : ℤ),
      TopModelInv (TopInitModel m) ∧ TopModelInv (TopFreeModel m) ∧
        TopModelInv (TopLoadModel m src planet).2 := by
  intro m src planet
  refine ⟨Or.inr rfl, Or.inr rfl, ?_⟩
  by_cases hstat : (TopLoadModel m src planet).1 = TopStatus.Ok
  · exact Or.inl (topLoad_ok_full m src planet hstat).1
  · exact Or.inr (topLoad_fail_empty m src planet hstat)

/-- Claim C7: the planet argument of TopEcliptic never influences the
computed geometry: any two planet identifiers give the same status and
the same rectangular state on the same elements. -/
theorem top2013_c7_planet_independent :
    ∀ (p1 p2 : ℤ) (el : top_elliptical_t), TopEcliptic p1 el = TopEcliptic p2 el :=
  fun _ _ _ => rfl

/-- Claim C8: on any populated formula, even with caller-mutated calc
counts, the clamped counts used by evaluation lie between 1 and the
stored totals (series count also at most TOP_MAX_SERIES = 13) and never
exceed the lengths of the underlying arrays, so no out-of-range series
or term index is ever read, and the evaluation equals the evaluation of
the formula with the calc counts replaced by their clamped values. -/
theorem top2013_c8_clamping :
    ∀ (t : ℝ) (f : top_formula_t), TopFormulaPopulated f →
      (1 ≤ topClampSeriesCount f ∧ topClampSeriesCount f ≤ f.nseries_total ∧
        topClampSeriesCount f ≤ TOP_MAX_SERIES ∧
        (topClampSeriesCount f).toNat ≤ f.series.length) ∧
      (∀ s ∈ f.series, 1 ≤ topClampTermCount s ∧
        topClampTermCount s ≤ s.nterms_total ∧
        (topClampTermCount s).toNat ≤ s.terms.length) ∧
      topFormulaValue t f = topFormulaValue t (topClampFormula f) := by
  intro t f hp
  refine ⟨?_, ?_, (topFormulaValue_clamp t f hp).symm⟩
  · have h1 := hp.1
    have h2 := hp.2.1
    have h3 := hp.2.2.1
    simp only [topClampSeriesCount, TOP_MAX_SERIES] at h2 ⊢
    omega
  · intro s hs
    have hsp := hp.2.2.2 s hs
    have h1 := hsp.1
    have h2 := hsp.2
    unfold topClampTermCount
    omega

/-- Witness for C8: the clamping theorem applied to a concrete populated
formula whose calc counts were mutated out of range. -/
theorem top2013_c8_clamping_witness :
    TopFormulaPopulated topExFormulaMut ∧
      ((1 ≤ topClampSeriesCount topExFormulaMut ∧
        topClampSeriesCount topExFormulaMut ≤ topExFormulaMut.nseries_total ∧
        topClampSeriesCount topExFormulaMut ≤ TOP_MAX_SERIES ∧
        (topClampSeriesCount topExFormulaMut).toNat ≤ topExFormulaMut.series.length) ∧
      (∀ s ∈ topExFormulaMut.series, 1 ≤ topClampTermCount s ∧
        topClampTermCount s ≤ s.nterms_total ∧
        (topClampTermCount s).toNat ≤ s.terms.length) ∧
      topFormulaValue 0 topExFormulaMut =
        topFormulaValue 0 (topClampFormula topExFormulaMut)) :=
  ⟨by decide, top2013_c8_clamping 0 topExFormulaMut (by decide)⟩

/-- Claim C9: TopEquatorial applies one fixed rotation about the x axis
by the mean obliquity of the ecliptic at the reference epoch to both the
position and the velocity vector, and the squared Euclidean norm of the
position is exactly unchanged. -/
theorem top2013_c9_equatorial_rotation :
    ∀ r : top_rectangular_t, ∃ r2 : top_rectangular_t,
      TopEquatorial r = .ok r2 ∧
      r2.x = r.x ∧
      r2.y = Real.cos topObliquity * r.y - Real.sin topObliquity * r.z ∧
      r2.z = Real.sin topObliquity * r.y + Real.cos topObliquity * r.z ∧
      r2.vx = r.vx ∧
      r2.vy = Real.cos topObliquity * r.vy - Real.sin topObliquity * r.vz ∧
      r2.vz = Real.sin topObliquity * r.vy + Real.cos topObliquity * r.vz ∧
      topPosNormSq r2 = topPosNormSq r := by
  intro r
  refine ⟨_, rfl, rfl, rfl, rfl, rfl, rfl, rfl, ?_⟩
  unfold topPosNormSq
  dsimp only
  linear_combination (r.y ^ 2 + r.z ^ 2) * Real.sin_sq_add_cos_sq topObliquity

/-- Claim C10: a successful TopLoadModel leaves every formula with at
most TOP_MAX_SERIES = 13 series, and when the block matched by the
requested planet declares more than 13 series for any orbital element
the load fails and leaves the empty model rather than writing past the
inline array. -/
theorem top2013_c10_capacity :
    ∀ (m : top_model_t) (file : top_file_t) (planet : ℤ),
      ((TopLoadModel m (some file) planet).1 = TopStatus.Ok →
        ∀ f ∈ (TopLoadModel m (some file) planet).2.formula,
          f.nseries_total ≤ TOP_MAX_SERIES ∧
            (f.series.length : ℤ) ≤ TOP_MAX_SERIES) ∧
      (∀ b : top_file_block_t,
        file.find? (fun blk => blk.planet == planet) = some b →
        (∃ ff ∈ b.formulas, TOP_MAX_SERIES < (ff.series.length : ℤ)) →
        (TopLoadModel m (some file) planet).1 ≠ TopStatus.Ok ∧
          (TopLoadModel m (some file) planet).2 = topEmptyModel) := by
  intro m file planet
  constructor
  · intro hok f hf
    have hfull := (topLoad_ok_full m (some file) planet hok).1
    have hpf := hfull.1.2.2.2 f hf
    refine ⟨hpf.2.1, ?_⟩
    have h1 := hpf.2.1
    have h2 := hpf.2.2.1
    omega
  · intro b hfind hbad
    have hne : (TopLoadModel m (some file) planet).1 ≠ TopStatus.Ok := by
      intro hok
      by_cases hr : 5 ≤ planet ∧ planet ≤ 9
      · cases hp : topParseBlock b with
        | error e =>
          have heq : TopLoadModel m (some file) planet = (e, topEmptyModel) := by
            unfold TopLoadModel; dsimp only; rw [if_pos hr, hfind]; dsimp only; rw [hp]
          rw [heq] at hok
          rw [topParseBlock_error b e hp] at hok
          cases hok
        | ok m2 =>
          obtain ⟨_, _, _, hbound⟩ := topParseBlock_ok b m2 hp
          obtain ⟨ff, hmem, hlt⟩ := hbad
          exact absurd (hbound ff hmem) (by omega)
      · have heq : TopLoadModel m (some file) planet =
            (.PlanetNotFound, topEmptyModel) := by
          unfold TopLoadModel; dsimp only; rw [if_neg hr]
        rw [heq] at hok
        cases hok
    exact ⟨hne, topLoad_fail_empty m (some file) planet hne⟩

/-- Witness for C10: loading from a source whose matching block declares
14 series for an orbital element fails and leaves the empty model. -/
theorem top2013_c10_capacity_witness :
    (TopLoadModel topEmptyModel (some [topExBadBlock]) 5).1 ≠ TopStatus.Ok ∧
      (TopLoadModel topEmptyModel (some [topExBadBlock]) 5).2 = topEmptyModel :=
  (top2013_c10_capacity topEmptyModel [topExBadBlock] 5).2 topExBadBlock (by decide)
    ⟨⟨List.replicate 14 ⟨1, [topExTerm]⟩⟩, by decide, by decide⟩

end Top2013
